import Mathlib

/-!
Verification of the wiki-revision downloader (`download_wiki_revisions_VL2.py`).

The development shallowly embeds the script's functions over:
* an XML tree model (`Xml` / `XmlList`) standing for documents handled by
  BeautifulSoup with the `lxml-xml` builder, together with a serializer and a
  verified parser (the model of re-parsing `str(revision)` output);
* a filesystem tree model (`FsNode` / `FsEntries`) standing for the directory
  tree under the data root, with `pathlib` / `os` operations;
* Python exceptions as a pair of type name and message (`PyErr`).

Machine integers do not occur: every quantity in the script is an unbounded
Python `int`, modelled by `Nat` / `Int`.
-/

/-- Model of a raised Python exception: its class name and its message. -/
structure PyErr where
  ty : String
  msg : String
deriving DecidableEq

/-- Model of a `datetime.datetime` value as produced by `strptime` on the
format `%Y-%m-%dT%H:%M:%SZ` (no fractional seconds, no timezone). -/
structure DateTime where
  year : Nat
  month : Nat
  day : Nat
  hour : Nat
  minute : Nat
  second : Nat
deriving DecidableEq

mutual
/-- Model of a parsed markup node: an element with a tag name and children, or
a text node.  Attributes on tags are not modelled: the script only ever looks
up elements by tag name and reads their text. -/
inductive Xml where
  | elem : String → XmlList → Xml
  | txt : String → Xml
deriving DecidableEq
/-- A list of sibling markup nodes (mutual with `Xml`). -/
inductive XmlList where
  | nil : XmlList
  | cons : Xml → XmlList → XmlList
deriving DecidableEq
end

mutual
/-- Serialization of one node, as `str(tag)` renders it: `<name>…</name>` for
elements, the raw text for text nodes. -/
def serE : Xml → List Char
  | .elem n l => '<' :: (n.toList ++ '>' :: (serL l ++ '<' :: '/' :: (n.toList ++ ['>'])))
  | .txt s => s.toList
/-- Serialization of a sibling list. -/
def serL : XmlList → List Char
  | .nil => []
  | .cons x l => serE x ++ serL l
end

/-- Whether a node is a text node. -/
def isTxt : Xml → Bool
  | .txt _ => true
  | .elem _ _ => false

/-- Whether a sibling list begins with a text node. -/
def headIsTxt : XmlList → Bool
  | .nil => false
  | .cons x _ => isTxt x

/-- A usable tag name: nonempty and free of the markup delimiters. -/
def nameOk (n : String) : Bool :=
  !n.isEmpty && n.toList.all (fun c => !(c == '<') && !(c == '>') && !(c == '/'))

/-- A usable text chunk: nonempty and free of `<`. -/
def textOk (s : String) : Bool :=
  !s.isEmpty && s.toList.all (fun c => !(c == '<'))

mutual
/-- Well-formedness of a node: names and texts usable throughout. -/
def wfE : Xml → Bool
  | .elem n l => nameOk n && wfL l
  | .txt s => textOk s
/-- Well-formedness of a sibling list; adjacent text nodes are excluded so
that serialization stays injective (a parser reads maximal text runs). -/
def wfL : XmlList → Bool
  | .nil => true
  | .cons x l => wfE x && wfL l && !(isTxt x && headIsTxt l)
end

/-- Recursion budget sufficient for `parseNodes` to consume a serialized
sibling list. -/
def fuelL : XmlList → Nat
  | .nil => 1
  | .cons (.txt _) l => 1 + fuelL l
  | .cons (.elem _ c) l => 1 + fuelL c + fuelL l

/-- Character predicate: not the tag-close delimiter. -/
def notGt (c : Char) : Bool := c != '>'

/-- Character predicate: not the tag-open delimiter. -/
def notLt (c : Char) : Bool := c != '<'

/-- Recursive-descent parser for the serialized form, with an explicit fuel
budget.  It reads sibling nodes until the input ends or a closing tag starts,
and returns the parsed siblings with the unconsumed suffix.  This is the model
of handing text back to BeautifulSoup. -/
def parseNodes : Nat → List Char → Option (XmlList × List Char)
  | 0, _ => none
  | _ + 1, [] => some (.nil, [])
  | f + 1, c :: cs =>
    if c = '<' then
      match cs with
      | [] => none
      | c2 :: cs2 =>
        if c2 = '/' then some (.nil, c :: cs)
        else
          let name := (c2 :: cs2).takeWhile notGt
          if name.isEmpty then none
          else
            match (c2 :: cs2).dropWhile notGt with
            | '>' :: cs3 =>
              match parseNodes f cs3 with
              | some (children, cs4) =>
                match cs4 with
                | '<' :: '/' :: cs5 =>
                  if cs5.take name.length = name then
                    match cs5.drop name.length with
                    | '>' :: cs6 =>
                      match parseNodes f cs6 with
                      | some (sibs, cs7) =>
                        some (.cons (.elem (String.mk name) children) sibs, cs7)
                      | none => none
                    | _ => none
                  else none
                | _ => none
              | none => none
            | _ => none
    else
      let t := (c :: cs).takeWhile notLt
      match parseNodes f ((c :: cs).dropWhile notLt) with
      | some (sibs, cs2) => some (.cons (.txt (String.mk t)) sibs, cs2)
      | none => none

/-- Parse a whole document string; succeeds only when the text is consumed
entirely. -/
def parseDoc (s : String) : Option XmlList :=
  match parseNodes (s.toList.length + 1) s.toList with
  | some (l, []) => some l
  | _ => none

mutual
/-- Concatenated text of one node, as BeautifulSoup's `.text`. -/
def textE : Xml → String
  | .elem _ l => textL l
  | .txt s => s
/-- Concatenated text of a sibling list. -/
def textL : XmlList → String
  | .nil => ""
  | .cons x l => textE x ++ textL l
end

mutual
/-- All elements with the given tag name, in document (preorder) order:
model of `soup.find_all(name)` restricted to one node. -/
def findAllE (name : String) : Xml → List Xml
  | .elem n l => (if n = name then [Xml.elem n l] else []) ++ findAllL name l
  | .txt _ => []
/-- All elements with the given tag name below a sibling list. -/
def findAllL (name : String) : XmlList → List Xml
  | .nil => []
  | .cons x l => findAllE name x ++ findAllL name l
end

/-- Model of `soup.find(name)`: the first match in document order. -/
def findFirstL (name : String) (l : XmlList) : Option Xml :=
  (findAllL name l).head?

/-- First match in document order inside one node. -/
def findFirstE (name : String) (x : Xml) : Option Xml :=
  (findAllE name x).head?

mutual
/-- All elements of a node in document (preorder) order, any name. -/
def elemsE : Xml → List Xml
  | .elem n l => Xml.elem n l :: elemsL l
  | .txt _ => []
/-- All elements below a sibling list in document order. -/
def elemsL : XmlList → List Xml
  | .nil => []
  | .cons x l => elemsE x ++ elemsL l
end

/-- Whether a node is an element carrying the given tag name. -/
def isNamed (name : String) : Xml → Bool
  | .elem n _ => n == name
  | .txt _ => false

mutual
/-- Independent count of the elements with a given tag name in one node. -/
def cntE (name : String) : Xml → Nat
  | .elem n l => (if n = name then 1 else 0) + cntL name l
  | .txt _ => 0
/-- Independent count of the elements with a given tag name below a list. -/
def cntL (name : String) : XmlList → Nat
  | .nil => 0
  | .cons x l => cntE name x + cntL name l
end

/-- Numeric value of a digit string, most significant first. -/
def digitVal (cs : List Char) : Nat :=
  cs.foldl (fun a c => a * 10 + (c.toNat - 48)) 0

/-- Leading run of decimal digits and the remaining characters. -/
def takeDigits (cs : List Char) : List Char × List Char :=
  (cs.takeWhile Char.isDigit, cs.dropWhile Char.isDigit)

/-- Model of the field scan CPython's `_strptime` performs for the pattern
`%Y-%m-%dT%H:%M:%SZ`: the year is exactly four digits; month, day, hour,
minute and second are one or two digits within the ranges 1–12, 1–31, 0–23,
0–59 and 0–61 respectively (61 allowing leap seconds); the whole string must
be consumed. -/
def strptimeFields (cs : List Char) : Option (Nat × Nat × Nat × Nat × Nat × Nat) :=
  let (y, r0) := takeDigits cs
  if y.length = 4 then
    match r0 with
    | '-' :: r1 =>
      let (mo, r2) := takeDigits r1
      if 1 ≤ mo.length ∧ mo.length ≤ 2 ∧ 1 ≤ digitVal mo ∧ digitVal mo ≤ 12 then
        match r2 with
        | '-' :: r3 =>
          let (d, r4) := takeDigits r3
          if 1 ≤ d.length ∧ d.length ≤ 2 ∧ 1 ≤ digitVal d ∧ digitVal d ≤ 31 then
            match r4 with
            | 'T' :: r5 =>
              let (h, r6) := takeDigits r5
              if 1 ≤ h.length ∧ h.length ≤ 2 ∧ digitVal h ≤ 23 then
                match r6 with
                | ':' :: r7 =>
                  let (mi, r8) := takeDigits r7
                  if 1 ≤ mi.length ∧ mi.length ≤ 2 ∧ digitVal mi ≤ 59 then
                    match r8 with
                    | ':' :: r9 =>
                      let (s, r10) := takeDigits r9
                      if 1 ≤ s.length ∧ s.length ≤ 2 ∧ digitVal s ≤ 61 then
                        match r10 with
                        | ['Z'] =>
                          some (digitVal y, digitVal mo, digitVal d,
                                digitVal h, digitVal mi, digitVal s)
                        | _ => none
                      else none
                    | _ => none
                  else none
                | _ => none
              else none
            | _ => none
          else none
        | _ => none
      else none
    | _ => none
  else none

/-- Gregorian leap-year test, as `datetime` uses. -/
def isLeap (y : Nat) : Bool :=
  y % 4 = 0 && (y % 100 != 0 || y % 400 = 0)

/-- Days in a month of a given year, as `datetime` validates. -/
def daysInMonth (y m : Nat) : Nat :=
  if m = 2 then (if isLeap y then 29 else 28)
  else if m = 4 ∨ m = 6 ∨ m = 9 ∨ m = 11 then 30
  else 31

/-- Embedding of `parse_timestring`: `datetime.strptime(timestring,
"%Y-%m-%dT%H:%M:%SZ")`.  The field scan is `strptimeFields`; the `datetime`
constructor then rejects year 0, a day beyond the month's length, and seconds
60/61. -/
def parse_timestring (timestring : String) : Except PyErr DateTime :=
  match strptimeFields timestring.toList with
  | none =>
    .error ⟨"ValueError",
      "time data " ++ timestring ++ " does not match format %Y-%m-%dT%H:%M:%SZ"⟩
  | some (y, mo, d, h, mi, s) =>
    if y = 0 then .error ⟨"ValueError", "year 0 is out of range"⟩
    else if daysInMonth y mo < d then
      .error ⟨"ValueError", "day is out of range for month"⟩
    else if 59 < s then .error ⟨"ValueError", "second must be in 0..59"⟩
    else .ok ⟨y, mo, d, h, mi, s⟩

/-- Embedding of `_extract_attribute`: parse the text, look up the first
element with the given tag name, return its text; raise `ValueError` when no
such element exists (an unparseable text yields an empty soup and hence the
same error). -/
def extract_attribute (text : String) (attr : String) : Except PyErr String :=
  match parseDoc text with
  | some l =>
    match findFirstL attr l with
    | some e => .ok (textE e)
    | none => .error ⟨"ValueError", "Could not find attribute " ++ attr ++ " in text"⟩
  | none => .error ⟨"ValueError", "Could not find attribute " ++ attr ++ " in text"⟩

/-- Embedding of `extract_id`. -/
def extract_id (revision : String) : Except PyErr String :=
  extract_attribute revision "id"

/-- Embedding of `find_timestamp`. -/
def find_timestamp (revision : String) : Except PyErr DateTime :=
  match extract_attribute revision "timestamp" with
  | .ok ts => parse_timestring ts
  | .error e => .error e

/-- Embedding of `str.zfill`: left-pad with zeros to the given width (the
script only applies it to digit strings, so the sign handling of `zfill` is
irrelevant). -/
def zfill (width : Nat) (s : String) : String :=
  if width ≤ s.length then s
  else String.mk (List.replicate (width - s.length) '0') ++ s

/-- Embedding of `construct_path`.  A `pathlib` path is modelled as its list
of segments; `save_dir / page_name / year / month / f"{id}.xml"` appends four
segments to the save directory. -/
def construct_path (page_name : String) (save_dir : List String)
    (wiki_revision : String) : Except PyErr (List String) :=
  match extract_id wiki_revision with
  | .error e => .error e
  | .ok revision_id =>
    match find_timestamp wiki_revision with
    | .error e => .error e
    | .ok timestamp =>
      .ok (save_dir ++ [page_name, Nat.repr timestamp.year,
                        zfill 2 (Nat.repr timestamp.month),
                        revision_id ++ ".xml"])

/-- Embedding of `validate_page`: try to extract a `page` attribute, convert
the `ValueError` into one naming the page. -/
def validate_page (page_name : String) (page_xml : String) : Except PyErr Unit :=
  match extract_attribute page_xml "page" with
  | .ok _ => .ok ()
  | .error _ => .error ⟨"ValueError", "Page " ++ page_name ++ " does not exist"⟩

/-- Embedding of `parse_mediawiki_revisions`: all `revision` elements in
document order, each serialized back to text with `str(revision)`. -/
def parse_mediawiki_revisions (xml_content : String) : List String :=
  match parseDoc xml_content with
  | some l => (findAllL "revision" l).map (fun e => String.mk (serE e))
  | none => []

/-- The form parameters `download_page_w_revisions` posts to the export
endpoint.  `requests` sends them as given; the numeric limit is kept as an
integer. -/
structure ExportParams where
  title : String
  pages : String
  limit : Int
  dir : String
  action : String
deriving DecidableEq

/-- Embedding of the parameter dictionary built in `download_page_w_revisions`. -/
def downloadParams (page_title : String) (limit : Int) : ExportParams :=
  { title := "Special:Export"
    pages := page_title
    limit := min limit 1000
    dir := "desc"
    action := "submit" }

mutual
/-- Model of a filesystem object: a regular file with its text content, or a
directory with named children. -/
inductive FsNode where
  | file : String → FsNode
  | dir : FsEntries → FsNode
deriving DecidableEq
/-- Named directory entries (mutual with `FsNode`). -/
inductive FsEntries where
  | nil : FsEntries
  | cons : String → FsNode → FsEntries → FsEntries
deriving DecidableEq
end

/-- Child of a directory by name. -/
def childGet : FsEntries → String → Option FsNode
  | .nil, _ => none
  | .cons n x rest, s => if n = s then some x else childGet rest s

/-- Replace or add a child by name. -/
def childSet : FsEntries → String → FsNode → FsEntries
  | .nil, s, node => .cons s node .nil
  | .cons n x rest, s, node =>
    if n = s then .cons n node rest else .cons n x (childSet rest s node)

/-- Object at a path below a node, if any. -/
def lookup : FsNode → List String → Option FsNode
  | node, [] => some node
  | .file _, _ :: _ => none
  | .dir es, s :: p =>
    match childGet es s with
    | some c => lookup c p
    | none => none

/-- Model of `Path.mkdir(parents=True, exist_ok=True)`: create every missing
directory on the path; fail when an existing regular file stands in the way. -/
def mkdirp : FsNode → List String → Except PyErr FsNode
  | .file _, [] => .error ⟨"FileExistsError", "File exists"⟩
  | .dir es, [] => .ok (.dir es)
  | .file _, _ :: _ => .error ⟨"NotADirectoryError", "Not a directory"⟩
  | .dir es, s :: p =>
    match childGet es s with
    | some c =>
      match mkdirp c p with
      | .ok c2 => .ok (.dir (childSet es s c2))
      | .error e => .error e
    | none =>
      match mkdirp (.dir .nil) p with
      | .ok c2 => .ok (.dir (childSet es s c2))
      | .error e => .error e

/-- Model of `Path.write_text`: create or replace the file at the path; fail
when the parent directory is missing or a directory stands at the target. -/
def writeText : FsNode → List String → String → Except PyErr FsNode
  | _, [], _ => .error ⟨"IsADirectoryError", "Is a directory"⟩
  | .file _, _ :: _, _ => .error ⟨"NotADirectoryError", "Not a directory"⟩
  | .dir es, [s], content =>
    match childGet es s with
    | some (.dir _) => .error ⟨"IsADirectoryError", "Is a directory"⟩
    | _ => .ok (.dir (childSet es s (.file content)))
  | .dir es, s :: p, content =>
    match childGet es s with
    | some c =>
      match writeText c p content with
      | .ok c2 => .ok (.dir (childSet es s c2))
      | .error e => .error e
    | none => .error ⟨"FileNotFoundError", "No such file or directory"⟩

/-- Embedding of `count_revisions` over the entries of one directory: files
count one each; a subdirectory counts one exactly when the flag is the literal
string `"True"`, plus its own recursive count. -/
def countEntries : FsEntries → String → Nat
  | .nil, _ => 0
  | .cons _ (.file _) rest, folders => 1 + countEntries rest folders
  | .cons _ (.dir es) rest, folders =>
    (if folders = "True" then 1 else 0) + countEntries es folders
      + countEntries rest folders

/-- Embedding of `count_revisions` called on a path: `os.listdir` raises
`FileNotFoundError` when the path is missing and `NotADirectoryError` when it
is a file. -/
def count_revisions (fs : FsNode) (path_to_subfolder : List String)
    (folders : String) : Except PyErr Nat :=
  match lookup fs path_to_subfolder with
  | none => .error ⟨"FileNotFoundError", "No such file or directory"⟩
  | some (.file _) => .error ⟨"NotADirectoryError", "Not a directory"⟩
  | some (.dir es) => .ok (countEntries es folders)

/-- One iteration of the orchestrator's save loop, then the rest: compute the
path; when the target file does not exist, create the parent directories (the
`exists` test guards only the `mkdir` call in the script); then write the
fragment unconditionally.  The returned list records every path handed to
`write_text`, in order. -/
def processRevisions (page : String) (data_dir : List String) :
    FsNode → List String → Except PyErr (FsNode × List (List String))
  | fs, [] => .ok (fs, [])
  | fs, frag :: rest =>
    match construct_path page data_dir frag with
    | .error e => .error e
    | .ok path =>
      let step : Except PyErr FsNode :=
        if (lookup fs path).isSome then .ok fs else mkdirp fs path.dropLast
      match step with
      | .error e => .error e
      | .ok fs1 =>
        match writeText fs1 path frag with
        | .error e => .error e
        | .ok fs2 =>
          match processRevisions page data_dir fs2 rest with
          | .ok (fs3, writes) => .ok (fs3, path :: writes)
          | .error e => .error e

/-- Embedding of the script's `main` after the network fetch: `raw` is the response text,
`fs0` the directory tree at the data root.  Validates the page, saves every
parsed revision, then counts under `data_dir/page`.  Returns the final tree,
the write log, and the reported count. -/
def mainRun (page : String) (data_dir : List String) (folders : String)
    (raw : String) (fs0 : FsNode) :
    Except PyErr (FsNode × List (List String) × Nat) :=
  match validate_page page raw with
  | .error e => .error e
  | .ok _ =>
    match processRevisions page data_dir fs0 (parse_mediawiki_revisions raw) with
    | .error e => .error e
    | .ok (fs1, writes) =>
      match count_revisions fs1 (data_dir ++ [page]) folders with
      | .error e => .error e
      | .ok n => .ok (fs1, writes, n)

/-- The list is empty or starts with a character on which the predicate
fails; a `takeWhile` scan stops exactly there. -/
def HeadStop (p : Char → Bool) (ys : List Char) : Prop :=
  ys = [] ∨ ∃ z zs, ys = z :: zs ∧ p z = false

theorem takeWhile_all_append (p : Char → Bool) (xs ys : List Char)
    (hx : ∀ c ∈ xs, p c = true) (hy : HeadStop p ys) :
    (xs ++ ys).takeWhile p = xs := by
  induction xs with
  | nil =>
    rcases hy with rfl | ⟨z, zs, rfl, hz⟩
    · rfl
    · simp [List.takeWhile_cons, hz]
  | cons a xs ih =>
    have ha : p a = true := hx a (by simp)
    simp [List.takeWhile_cons, ha, ih (fun c hc => hx c (by simp [hc]))]

theorem dropWhile_all_append (p : Char → Bool) (xs ys : List Char)
    (hx : ∀ c ∈ xs, p c = true) (hy : HeadStop p ys) :
    (xs ++ ys).dropWhile p = ys := by
  induction xs with
  | nil =>
    rcases hy with rfl | ⟨z, zs, rfl, hz⟩
    · rfl
    · simp [List.dropWhile_cons, hz]
  | cons a xs ih =>
    have ha : p a = true := hx a (by simp)
    simp [List.dropWhile_cons, ha, ih (fun c hc => hx c (by simp [hc]))]

/-- Suffixes at which `parseNodes` stops reading siblings: the end of input
or the start of a closing tag. -/
def Stops (rest : List Char) : Prop :=
  rest = [] ∨ ∃ cs, rest = '<' :: '/' :: cs

theorem fuelL_pos : ∀ l : XmlList, 1 ≤ fuelL l
  | .nil => Nat.le_refl 1
  | .cons (.txt _) _ => by simp [fuelL]
  | .cons (.elem _ _) _ => by simp [fuelL]; omega

theorem isEmpty_false_toList_ne_nil {s : String} (h : s.isEmpty = false) :
    s.toList ≠ [] := by
  intro hnil
  cases s with
  | mk data =>
    have hd : data = [] := hnil
    subst hd
    exact absurd h (by decide)

theorem nameOk_toList_ne_nil {n : String} (h : nameOk n = true) : n.toList ≠ [] := by
  unfold nameOk at h
  have h1 := (Bool.and_eq_true _ _ |>.mp h).1
  exact isEmpty_false_toList_ne_nil (Bool.not_eq_true' .. |>.mp h1)

theorem nameOk_chars {n : String} (h : nameOk n = true) :
    ∀ c ∈ n.toList, c ≠ '<' ∧ c ≠ '>' ∧ c ≠ '/' := by
  intro c hc
  unfold nameOk at h
  have h2 := (Bool.and_eq_true _ _ |>.mp h).2
  have h3 := List.all_eq_true.mp h2 c hc
  simp only [Bool.and_eq_true, Bool.not_eq_true', beq_eq_false_iff_ne] at h3
  exact ⟨h3.1.1, h3.1.2, h3.2⟩

theorem textOk_toList_ne_nil {s : String} (h : textOk s = true) : s.toList ≠ [] := by
  unfold textOk at h
  have h1 := (Bool.and_eq_true _ _ |>.mp h).1
  exact isEmpty_false_toList_ne_nil (Bool.not_eq_true' .. |>.mp h1)

theorem textOk_chars {s : String} (h : textOk s = true) :
    ∀ c ∈ s.toList, notLt c = true := by
  intro c hc
  unfold textOk at h
  have h2 := (Bool.and_eq_true _ _ |>.mp h).2
  have h3 := List.all_eq_true.mp h2 c hc
  simpa [notLt] using h3

/-- The serialization of a list that does not begin with a text node, with a
stopping suffix behind it, halts a `notLt` scan immediately. -/
theorem serL_headStop (l : XmlList) (rest : List Char)
    (hht : headIsTxt l = false) (hstop : Stops rest) :
    HeadStop notLt (serL l ++ rest) := by
  cases l with
  | nil =>
    rcases hstop with rfl | ⟨cs, rfl⟩
    · exact Or.inl rfl
    · exact Or.inr ⟨'<', '/' :: cs, rfl, by decide⟩
  | cons x l =>
    cases x with
    | txt s => simp [headIsTxt, isTxt] at hht
    | elem n c =>
      have hser : serL (XmlList.cons (Xml.elem n c) l) ++ rest =
          '<' :: ((n.toList ++ '>' :: (serL c ++ '<' :: '/' :: (n.toList ++ ['>'])))
            ++ (serL l ++ rest)) := by
        simp [serL, serE]
      exact Or.inr ⟨'<', _, hser, by decide⟩

theorem parseNodes_serL_aux (k : Nat) :
    ∀ (l : XmlList) (rest : List Char) (fuel : Nat),
      fuelL l ≤ k → wfL l = true → Stops rest → fuelL l ≤ fuel →
      parseNodes fuel (serL l ++ rest) = some (l, rest) := by
  induction k with
  | zero =>
    intro l rest fuel hk _ _ _
    have := fuelL_pos l
    omega
  | succ k ih =>
    intro l rest fuel hk hwf hstop hfuel
    obtain ⟨f, rfl⟩ : ∃ f, fuel = f + 1 := by
      have := fuelL_pos l
      cases fuel with
      | zero => omega
      | succ f => exact ⟨f, rfl⟩
    cases l with
    | nil =>
      rcases hstop with rfl | ⟨cs, rfl⟩
      · simp [serL, parseNodes]
      · simp [serL, parseNodes]
    | cons x l' =>
      cases x with
      | txt s =>
        have hwf' := hwf
        simp only [wfL, wfE, isTxt, Bool.and_eq_true, Bool.not_eq_true',
          Bool.true_and] at hwf'
        obtain ⟨⟨hts, hwl⟩, hht⟩ := hwf'
        obtain ⟨a, t, hs⟩ : ∃ a t, s.toList = a :: t := by
          cases hsl : s.toList with
          | nil => exact absurd hsl (textOk_toList_ne_nil hts)
          | cons a t => exact ⟨a, t, rfl⟩
        have hchars : ∀ c ∈ a :: t, notLt c = true := by
          rw [← hs]; exact textOk_chars hts
        have hne : a ≠ '<' := by
          have := hchars a (by simp)
          simpa [notLt, bne_iff_ne] using this
        have hhs : HeadStop notLt (serL l' ++ rest) := serL_headStop l' rest hht hstop
        have hfl' : fuelL l' ≤ k := by simp [fuelL] at hk; omega
        have hfuel' : fuelL l' ≤ f := by simp [fuelL] at hfuel; omega
        have hsd : s.data = a :: t := hs
        have hser : serL (XmlList.cons (Xml.txt s) l') ++ rest =
            a :: (t ++ (serL l' ++ rest)) := by
          simp [serL, serE, hsd]
        rw [hser]
        have htake : (a :: (t ++ (serL l' ++ rest))).takeWhile notLt = a :: t := by
          have := takeWhile_all_append notLt (a :: t) (serL l' ++ rest) hchars hhs
          simpa using this
        have hdrop : (a :: (t ++ (serL l' ++ rest))).dropWhile notLt = serL l' ++ rest := by
          have := dropWhile_all_append notLt (a :: t) (serL l' ++ rest) hchars hhs
          simpa using this
        have hmk : String.mk (a :: t) = s := by
          have h0 : String.mk s.data = s := rfl
          rw [hsd] at h0
          exact h0
        simp only [parseNodes]
        rw [if_neg hne, htake, hdrop, ih l' rest f hfl' hwl hstop hfuel']
        rw [hmk]
      | elem n c =>
        have hwf' := hwf
        simp only [wfL, wfE, isTxt, Bool.and_eq_true, Bool.not_eq_true',
          Bool.false_and, Bool.not_false, Bool.and_true] at hwf'
        obtain ⟨⟨hno, hwc⟩, hwl⟩ := hwf'
        obtain ⟨a, t, hn⟩ : ∃ a t, n.toList = a :: t := by
          cases hnl : n.toList with
          | nil => exact absurd hnl (nameOk_toList_ne_nil hno)
          | cons a t => exact ⟨a, t, rfl⟩
        have hchars : ∀ ch ∈ a :: t, ch ≠ '<' ∧ ch ≠ '>' ∧ ch ≠ '/' := by
          rw [← hn]; exact nameOk_chars hno
        have ha_slash : a ≠ '/' := (hchars a (by simp)).2.2
        have hnotGt : ∀ ch ∈ a :: t, notGt ch = true := by
          intro ch hch
          have := (hchars ch hch).2.1
          simpa [notGt, bne_iff_ne] using this
        have hflc : fuelL c ≤ k := by simp [fuelL] at hk; omega
        have hfll : fuelL l' ≤ k := by simp [fuelL] at hk; omega
        have hfuelc : fuelL c ≤ f := by simp [fuelL] at hfuel; omega
        have hfuell : fuelL l' ≤ f := by simp [fuelL] at hfuel; omega
        have hnd : n.data = a :: t := hn
        have hser : serL (XmlList.cons (Xml.elem n c) l') ++ rest =
            '<' :: a :: (t ++ '>' ::
              (serL c ++ '<' :: '/' :: (a :: (t ++ '>' :: (serL l' ++ rest))))) := by
          simp [serL, serE, hnd]
        rw [hser]
        have hstop2 : Stops ('<' :: '/' :: (a :: (t ++ '>' :: (serL l' ++ rest)))) :=
          Or.inr ⟨_, rfl⟩
        have htake : ((a :: (t ++ '>' ::
            (serL c ++ '<' :: '/' :: (a :: (t ++ '>' :: (serL l' ++ rest))))))).takeWhile notGt
            = a :: t := by
          have := takeWhile_all_append notGt (a :: t)
            ('>' :: (serL c ++ '<' :: '/' :: (a :: (t ++ '>' :: (serL l' ++ rest)))))
            hnotGt (Or.inr ⟨'>', _, rfl, by decide⟩)
          simpa using this
        have hdrop : ((a :: (t ++ '>' ::
            (serL c ++ '<' :: '/' :: (a :: (t ++ '>' :: (serL l' ++ rest))))))).dropWhile notGt
            = '>' :: (serL c ++ '<' :: '/' :: (a :: (t ++ '>' :: (serL l' ++ rest)))) := by
          have := dropWhile_all_append notGt (a :: t)
            ('>' :: (serL c ++ '<' :: '/' :: (a :: (t ++ '>' :: (serL l' ++ rest)))))
            hnotGt (Or.inr ⟨'>', _, rfl, by decide⟩)
          simpa using this
        have hmidser : serL c ++ '<' :: '/' :: (a :: (t ++ '>' :: (serL l' ++ rest)))
            = serL c ++ ('<' :: '/' :: (a :: (t ++ '>' :: (serL l' ++ rest)))) := rfl
        have hrec1 : parseNodes f
            (serL c ++ '<' :: '/' :: (a :: (t ++ '>' :: (serL l' ++ rest))))
            = some (c, '<' :: '/' :: (a :: (t ++ '>' :: (serL l' ++ rest)))) :=
          ih c _ f hflc hwc hstop2 hfuelc
        have htak2 : (a :: (t ++ '>' :: (serL l' ++ rest))).take (a :: t).length
            = a :: t := by
          simp
        have hdrp2 : (a :: (t ++ '>' :: (serL l' ++ rest))).drop (a :: t).length
            = '>' :: (serL l' ++ rest) := by
          simp
        have hrec2 : parseNodes f (serL l' ++ rest) = some (l', rest) :=
          ih l' rest f hfll hwl hstop hfuell
        have hmk : String.mk (a :: t) = n := by
          have h0 : String.mk n.data = n := rfl
          rw [hnd] at h0
          exact h0
        simp only [parseNodes]
        rw [if_pos trivial, if_neg ha_slash, htake, hdrop]
        simp [hrec1, htak2, hdrp2, hrec2, hmk]

theorem fuelL_le_length (k : Nat) :
    ∀ l : XmlList, fuelL l ≤ k → wfL l = true → fuelL l ≤ (serL l).length + 1 := by
  induction k with
  | zero =>
    intro l hk _
    have := fuelL_pos l
    omega
  | succ k ih =>
    intro l hk hwf
    cases l with
    | nil => simp [fuelL, serL]
    | cons x l' =>
      cases x with
      | txt s =>
        have hwf' := hwf
        simp only [wfL, wfE, isTxt, Bool.and_eq_true, Bool.not_eq_true',
          Bool.true_and] at hwf'
        obtain ⟨⟨hts, hwl⟩, _⟩ := hwf'
        have h1 : s.toList ≠ [] := textOk_toList_ne_nil hts
        have hlen : 1 ≤ s.toList.length := List.length_pos.mpr h1
        have hfl' : fuelL l' ≤ k := by simp [fuelL] at hk; omega
        have hy := ih l' hfl' hwl
        simp only [fuelL, serL, serE, List.length_append]
        omega
      | elem n c =>
        have hwf' := hwf
        simp only [wfL, wfE, isTxt, Bool.and_eq_true, Bool.not_eq_true',
          Bool.false_and, Bool.not_false, Bool.and_true] at hwf'
        obtain ⟨⟨_, hwc⟩, hwl⟩ := hwf'
        have hflc : fuelL c ≤ k := by simp [fuelL] at hk; omega
        have hfll : fuelL l' ≤ k := by simp [fuelL] at hk; omega
        have hc := ih c hflc hwc
        have hl := ih l' hfll hwl
        simp only [fuelL, serL, serE, List.length_append, List.length_cons]
        omega

/-- Parsing inverts serialization on well-formed sibling lists. -/
theorem parseDoc_mk_serL (l : XmlList) (hwf : wfL l = true) :
    parseDoc (String.mk (serL l)) = some l := by
  unfold parseDoc
  have htl : (String.mk (serL l)).toList = serL l := rfl
  rw [htl]
  have h1 : parseNodes ((serL l).length + 1) (serL l ++ []) = some (l, []) :=
    parseNodes_serL_aux (fuelL l) l [] ((serL l).length + 1) le_rfl hwf (Or.inl rfl)
      (fuelL_le_length (fuelL l) l le_rfl hwf)
  rw [List.append_nil] at h1
  rw [h1]

theorem wfL_singleton {x : Xml} (hwf : wfE x = true) :
    wfL (XmlList.cons x XmlList.nil) = true := by
  simp [wfL, headIsTxt, hwf]

/-- Parsing inverts serialization of one well-formed node. -/
theorem parseDoc_mk_serE (x : Xml) (hwf : wfE x = true) :
    parseDoc (String.mk (serE x)) = some (XmlList.cons x XmlList.nil) := by
  have hser : serL (XmlList.cons x XmlList.nil) = serE x := by simp [serL]
  have h := parseDoc_mk_serL (XmlList.cons x XmlList.nil) (wfL_singleton hwf)
  rw [hser] at h
  exact h

/-- Attribute extraction from a serialized well-formed node equals lookup of
the first matching element in the node itself. -/
theorem extract_attribute_mk_serE (x : Xml) (attr : String) (hwf : wfE x = true) :
    extract_attribute (String.mk (serE x)) attr =
      (match findFirstE attr x with
       | some e => Except.ok (textE e)
       | none =>
         Except.error ⟨"ValueError", "Could not find attribute " ++ attr ++ " in text"⟩) := by
  unfold extract_attribute
  rw [parseDoc_mk_serE x hwf]
  have h : findFirstL attr (XmlList.cons x XmlList.nil) = findFirstE attr x := by
    simp [findFirstL, findFirstE, findAllL, findAllE]
  show (match findFirstL attr (XmlList.cons x XmlList.nil) with
        | some e => (Except.ok (textE e) : Except PyErr String)
        | none =>
          Except.error
            (PyErr.mk "ValueError" ("Could not find attribute " ++ attr ++ " in text"))) = _
  rw [h]

mutual
theorem findAllE_filter (name : String) :
    (x : Xml) → findAllE name x = (elemsE x).filter (isNamed name)
  | .elem n l => by
    rw [findAllE, elemsE, List.filter_cons, findAllL_filter name l]
    by_cases h : n = name
    · simp [isNamed, h]
    · simp [isNamed, h]
  | .txt s => by rw [findAllE, elemsE]; rfl
theorem findAllL_filter (name : String) :
    (l : XmlList) → findAllL name l = (elemsL l).filter (isNamed name)
  | .nil => by rw [findAllL, elemsL]; rfl
  | .cons x l => by
    rw [findAllL, elemsL, List.filter_append, findAllE_filter name x,
      findAllL_filter name l]
end

mutual
theorem findAllE_length (name : String) :
    (x : Xml) → (findAllE name x).length = cntE name x
  | .elem n l => by
    rw [findAllE, cntE, List.length_append, findAllL_length name l]
    by_cases h : n = name
    · simp [h]
    · simp [h]
  | .txt s => by rw [findAllE, cntE]; rfl
theorem findAllL_length (name : String) :
    (l : XmlList) → (findAllL name l).length = cntL name l
  | .nil => by rw [findAllL, cntL]; rfl
  | .cons x l => by
    rw [findAllL, cntL, List.length_append, findAllE_length name x,
      findAllL_length name l]
end

mutual
theorem wf_findAllE (name : String) :
    (x : Xml) → wfE x = true → ∀ e ∈ findAllE name x, wfE e = true
  | .elem n l, h, e, he => by
    have h' := h
    simp only [wfE, Bool.and_eq_true] at h'
    rw [findAllE] at he
    rcases List.mem_append.mp he with h1 | h2
    · by_cases hn : n = name
      · subst hn
        simp at h1
        subst h1
        exact h
      · simp [hn] at h1
    · exact wf_findAllL name l h'.2 e h2
  | .txt s, _, e, he => by rw [findAllE] at he; exact absurd he (List.not_mem_nil e)
theorem wf_findAllL (name : String) :
    (l : XmlList) → wfL l = true → ∀ e ∈ findAllL name l, wfE e = true
  | .nil, _, e, he => by rw [findAllL] at he; exact absurd he (List.not_mem_nil e)
  | .cons x l, h, e, he => by
    have h' := h
    simp only [wfL, Bool.and_eq_true] at h'
    rw [findAllL] at he
    rcases List.mem_append.mp he with h1 | h2
    · exact wf_findAllE name x h'.1.1 e h1
    · exact wf_findAllL name l h'.1.2 e h2
end

/-- Number of files anywhere below a directory entry list (spec-side count). -/
def filesL : FsEntries → Nat
  | .nil => 0
  | .cons _ (.file _) rest => 1 + filesL rest
  | .cons _ (.dir es) rest => filesL es + filesL rest

/-- Number of directories anywhere below a directory entry list, the root not
included (spec-side count). -/
def dirsL : FsEntries → Nat
  | .nil => 0
  | .cons _ (.file _) rest => dirsL rest
  | .cons _ (.dir es) rest => 1 + dirsL es + dirsL rest

theorem countEntries_eq : (es : FsEntries) → ∀ folders : String,
    countEntries es folders = filesL es + (if folders = "True" then dirsL es else 0)
  | .nil, f => by simp [countEntries, filesL, dirsL]
  | .cons s (.file c) rest, f => by
    rw [countEntries, filesL, dirsL, countEntries_eq rest f]
    omega
  | .cons s (.dir es) rest, f => by
    rw [countEntries, filesL, dirsL, countEntries_eq es f, countEntries_eq rest f]
    by_cases h : f = "True"
    · simp [h]
      omega
    · simp [h]

/-- All characters are decimal digits. -/
def DigitsOk (cs : List Char) : Prop := ∀ c ∈ cs, c.isDigit = true

/-- A one- or two-digit numeric field whose value lies in a closed range:
what the `_strptime` regular expression accepts for `%m`, `%d`, `%H`, `%M`
and `%S` when a non-digit delimiter follows. -/
def FieldOk (cs : List Char) (lo hi : Nat) : Prop :=
  1 ≤ cs.length ∧ cs.length ≤ 2 ∧ DigitsOk cs ∧ lo ≤ digitVal cs ∧ digitVal cs ≤ hi

theorem takeDigits_append (xs ys : List Char) (hx : DigitsOk xs)
    (hy : HeadStop Char.isDigit ys) : takeDigits (xs ++ ys) = (xs, ys) := by
  unfold takeDigits
  rw [takeWhile_all_append _ _ _ hx hy, dropWhile_all_append _ _ _ hx hy]

/-- Declarative description of the strings the field scan accepts, together
with the fields it returns. -/
theorem strptimeFields_some_iff (cs : List Char)
    (flds : Nat × Nat × Nat × Nat × Nat × Nat) :
    strptimeFields cs = some flds ↔
    ∃ y mo d h mi sec : List Char,
      cs = y ++ '-' :: (mo ++ '-' :: (d ++ 'T' :: (h ++ ':' :: (mi ++ ':' :: (sec ++ ['Z']))))) ∧
      y.length = 4 ∧ DigitsOk y ∧
      FieldOk mo 1 12 ∧ FieldOk d 1 31 ∧ FieldOk h 0 23 ∧
      FieldOk mi 0 59 ∧ FieldOk sec 0 61 ∧
      flds = (digitVal y, digitVal mo, digitVal d, digitVal h, digitVal mi, digitVal sec) := by
  constructor
  · intro hscan
    simp only [strptimeFields, takeDigits] at hscan
    split at hscan
    · rename_i hylen
      split at hscan
      · rename_i r1 heq0
        split at hscan
        · rename_i hmoc
          split at hscan
          · rename_i r3 heq1
            split at hscan
            · rename_i hdc
              split at hscan
              · rename_i r5 heq2
                split at hscan
                · rename_i hhc
                  split at hscan
                  · rename_i r7 heq3
                    split at hscan
                    · rename_i hmic
                      split at hscan
                      · rename_i r9 heq4
                        split at hscan
                        · rename_i hsecc
                          split at hscan
                          · rename_i heq5
                            refine ⟨List.takeWhile Char.isDigit cs,
                              List.takeWhile Char.isDigit r1,
                              List.takeWhile Char.isDigit r3,
                              List.takeWhile Char.isDigit r5,
                              List.takeWhile Char.isDigit r7,
                              List.takeWhile Char.isDigit r9, ?_, ?_⟩
                            · have g5 : r9 = List.takeWhile Char.isDigit r9 ++ ['Z'] := by
                                have g := (List.takeWhile_append_dropWhile Char.isDigit r9).symm
                                rw [heq5] at g
                                exact g
                              have g4 : r7 = List.takeWhile Char.isDigit r7 ++ ':' ::
                                  (List.takeWhile Char.isDigit r9 ++ ['Z']) := by
                                have g := (List.takeWhile_append_dropWhile Char.isDigit r7).symm
                                rw [heq4, g5] at g
                                exact g
                              have g3 : r5 = List.takeWhile Char.isDigit r5 ++ ':' ::
                                  (List.takeWhile Char.isDigit r7 ++ ':' ::
                                    (List.takeWhile Char.isDigit r9 ++ ['Z'])) := by
                                have g := (List.takeWhile_append_dropWhile Char.isDigit r5).symm
                                rw [heq3, g4] at g
                                exact g
                              have g2 : r3 = List.takeWhile Char.isDigit r3 ++ 'T' ::
                                  (List.takeWhile Char.isDigit r5 ++ ':' ::
                                    (List.takeWhile Char.isDigit r7 ++ ':' ::
                                      (List.takeWhile Char.isDigit r9 ++ ['Z']))) := by
                                have g := (List.takeWhile_append_dropWhile Char.isDigit r3).symm
                                rw [heq2, g3] at g
                                exact g
                              have g1 : r1 = List.takeWhile Char.isDigit r1 ++ '-' ::
                                  (List.takeWhile Char.isDigit r3 ++ 'T' ::
                                    (List.takeWhile Char.isDigit r5 ++ ':' ::
                                      (List.takeWhile Char.isDigit r7 ++ ':' ::
                                        (List.takeWhile Char.isDigit r9 ++ ['Z'])))) := by
                                have g := (List.takeWhile_append_dropWhile Char.isDigit r1).symm
                                rw [heq1, g2] at g
                                exact g
                              have g0 := (List.takeWhile_append_dropWhile Char.isDigit cs).symm
                              rw [heq0, g1] at g0
                              exact g0
                            · have hdig : ∀ r : List Char, DigitsOk (List.takeWhile Char.isDigit r) :=
                                fun r c hc => List.mem_takeWhile_imp hc
                              refine ⟨hylen, hdig cs,
                                ⟨hmoc.1, hmoc.2.1, hdig r1, hmoc.2.2.1, hmoc.2.2.2⟩,
                                ⟨hdc.1, hdc.2.1, hdig r3, hdc.2.2.1, hdc.2.2.2⟩,
                                ⟨hhc.1, hhc.2.1, hdig r5, Nat.zero_le _, hhc.2.2⟩,
                                ⟨hmic.1, hmic.2.1, hdig r7, Nat.zero_le _, hmic.2.2⟩,
                                ⟨hsecc.1, hsecc.2.1, hdig r9, Nat.zero_le _, hsecc.2.2⟩,
                                (Option.some.inj hscan).symm⟩
                          · exact absurd hscan (by simp)
                        · exact absurd hscan (by simp)
                      · exact absurd hscan (by simp)
                    · exact absurd hscan (by simp)
                  · exact absurd hscan (by simp)
                · exact absurd hscan (by simp)
              · exact absurd hscan (by simp)
            · exact absurd hscan (by simp)
          · exact absurd hscan (by simp)
        · exact absurd hscan (by simp)
      · exact absurd hscan (by simp)
    · exact absurd hscan (by simp)
  · rintro ⟨y, mo, d, h, mi, sec, rfl, hylen, hy, hmo, hd, hh, hmi, hsec, rfl⟩
    have hstop : ∀ z zs, Char.isDigit z = false →
        HeadStop Char.isDigit (z :: zs) := fun z zs hz => Or.inr ⟨z, zs, rfl, hz⟩
    have t1 : takeDigits (y ++ '-' :: (mo ++ '-' :: (d ++ 'T' ::
        (h ++ ':' :: (mi ++ ':' :: (sec ++ ['Z'])))))) =
        (y, '-' :: (mo ++ '-' :: (d ++ 'T' :: (h ++ ':' :: (mi ++ ':' :: (sec ++ ['Z'])))))) :=
      takeDigits_append _ _ hy (hstop _ _ (by decide))
    have t2 : takeDigits (mo ++ '-' :: (d ++ 'T' :: (h ++ ':' :: (mi ++ ':' :: (sec ++ ['Z']))))) =
        (mo, '-' :: (d ++ 'T' :: (h ++ ':' :: (mi ++ ':' :: (sec ++ ['Z']))))) :=
      takeDigits_append _ _ hmo.2.2.1 (hstop _ _ (by decide))
    have t3 : takeDigits (d ++ 'T' :: (h ++ ':' :: (mi ++ ':' :: (sec ++ ['Z'])))) =
        (d, 'T' :: (h ++ ':' :: (mi ++ ':' :: (sec ++ ['Z'])))) :=
      takeDigits_append _ _ hd.2.2.1 (hstop _ _ (by decide))
    have t4 : takeDigits (h ++ ':' :: (mi ++ ':' :: (sec ++ ['Z']))) =
        (h, ':' :: (mi ++ ':' :: (sec ++ ['Z']))) :=
      takeDigits_append _ _ hh.2.2.1 (hstop _ _ (by decide))
    have t5 : takeDigits (mi ++ ':' :: (sec ++ ['Z'])) =
        (mi, ':' :: (sec ++ ['Z'])) :=
      takeDigits_append _ _ hmi.2.2.1 (hstop _ _ (by decide))
    have t6 : takeDigits (sec ++ ['Z']) = (sec, ['Z']) :=
      takeDigits_append _ _ hsec.2.2.1 (hstop _ _ (by decide))
    have cmo : 1 ≤ mo.length ∧ mo.length ≤ 2 ∧ 1 ≤ digitVal mo ∧ digitVal mo ≤ 12 :=
      ⟨hmo.1, hmo.2.1, hmo.2.2.2.1, hmo.2.2.2.2⟩
    have cd : 1 ≤ d.length ∧ d.length ≤ 2 ∧ 1 ≤ digitVal d ∧ digitVal d ≤ 31 :=
      ⟨hd.1, hd.2.1, hd.2.2.2.1, hd.2.2.2.2⟩
    have ch : 1 ≤ h.length ∧ h.length ≤ 2 ∧ digitVal h ≤ 23 :=
      ⟨hh.1, hh.2.1, hh.2.2.2.2⟩
    have cmi : 1 ≤ mi.length ∧ mi.length ≤ 2 ∧ digitVal mi ≤ 59 :=
      ⟨hmi.1, hmi.2.1, hmi.2.2.2.2⟩
    have csec : 1 ≤ sec.length ∧ sec.length ≤ 2 ∧ digitVal sec ≤ 61 :=
      ⟨hsec.1, hsec.2.1, hsec.2.2.2.2⟩
    simp only [strptimeFields, t1, t2, t3, t4, t5, t6, hylen, cmo, cd, ch, cmi, csec,
      if_true]
    simp

/-- Declarative description of the timestamp strings `parse_timestring`
accepts: the scan shape (lenient one/two-digit fields) together with the
`datetime` constructor's calendar checks. -/
def ValidTimestring (s : String) : Prop :=
  ∃ y mo d h mi sec : List Char,
    s.toList = y ++ '-' :: (mo ++ '-' :: (d ++ 'T' :: (h ++ ':' :: (mi ++ ':' :: (sec ++ ['Z']))))) ∧
    y.length = 4 ∧ DigitsOk y ∧ 1 ≤ digitVal y ∧
    FieldOk mo 1 12 ∧ FieldOk d 1 31 ∧ FieldOk h 0 23 ∧
    FieldOk mi 0 59 ∧ FieldOk sec 0 61 ∧
    digitVal d ≤ daysInMonth (digitVal y) (digitVal mo) ∧ digitVal sec ≤ 59

/-- `parse_timestring` succeeds exactly on `ValidTimestring` strings. -/
theorem parse_timestring_ok_iff (s : String) :
    (∃ dt, parse_timestring s = .ok dt) ↔ ValidTimestring s := by
  constructor
  · rintro ⟨dt, hok⟩
    unfold parse_timestring at hok
    cases hscan : strptimeFields s.toList with
    | none => rw [hscan] at hok; exact absurd hok (by simp)
    | some flds =>
      rw [hscan] at hok
      obtain ⟨y, mo, d, h, mi, sec, hdec, hylen, hy, hmo, hd, hh, hmi, hsec, hfl⟩ :=
        (strptimeFields_some_iff _ _).mp hscan
      subst hfl
      dsimp only at hok
      split at hok
      · exact absurd hok (by simp)
      · split at hok
        · exact absurd hok (by simp)
        · split at hok
          · exact absurd hok (by simp)
          · rename_i hy0 hdm hs59
            exact ⟨y, mo, d, h, mi, sec, hdec, hylen, hy, by omega, hmo, hd, hh, hmi,
              hsec, by omega, by omega⟩
  · rintro ⟨y, mo, d, h, mi, sec, hdec, hylen, hy, hy1, hmo, hd, hh, hmi, hsec, hdm, hs59⟩
    have hscan : strptimeFields s.toList =
        some (digitVal y, digitVal mo, digitVal d, digitVal h, digitVal mi, digitVal sec) :=
      (strptimeFields_some_iff _ _).mpr
        ⟨y, mo, d, h, mi, sec, hdec, hylen, hy, hmo, hd, hh, hmi, hsec, rfl⟩
    refine ⟨⟨digitVal y, digitVal mo, digitVal d, digitVal h, digitVal mi, digitVal sec⟩, ?_⟩
    unfold parse_timestring
    rw [hscan]
    have h1 : ¬(digitVal y = 0) := by omega
    have h2 : ¬(daysInMonth (digitVal y) (digitVal mo) < digitVal d) := by omega
    have h3 : ¬(59 < digitVal sec) := by omega
    simp [h1, h2, h3]

/-- What extraction of an attribute computes on the element itself: the text
of the first matching descendant in document order, or the extractor's
`ValueError`. -/
def treeExtract (attr : String) (x : Xml) : Except PyErr String :=
  match findFirstE attr x with
  | some e => .ok (textE e)
  | none =>
    .error ⟨"ValueError", "Could not find attribute " ++ attr ++ " in text"⟩

theorem extract_attribute_serE (x : Xml) (attr : String) (hwf : wfE x = true) :
    extract_attribute (String.mk (serE x)) attr = treeExtract attr x := by
  rw [extract_attribute_mk_serE x attr hwf]
  rfl

theorem extract_attribute_mk_serL (l : XmlList) (attr : String) (hwf : wfL l = true) :
    extract_attribute (String.mk (serL l)) attr =
      (match findFirstL attr l with
       | some e => (Except.ok (textE e) : Except PyErr String)
       | none =>
         Except.error
           (PyErr.mk "ValueError" ("Could not find attribute " ++ attr ++ " in text"))) := by
  unfold extract_attribute
  rw [parseDoc_mk_serL l hwf]

/-- C9: the `limit` form parameter sent to the export endpoint is
`min(requested, 1000)`: requests above 1000 are capped, requests at or below
1000 pass through unchanged. -/
theorem claim_C9 (page_title : String) (requested : Int) :
    (downloadParams page_title requested).limit = min requested 1000 ∧
    (1000 < requested → (downloadParams page_title requested).limit = 1000) ∧
    (requested ≤ 1000 → (downloadParams page_title requested).limit = requested) := by
  refine ⟨rfl, fun h => ?_, fun h => ?_⟩
  · simp [downloadParams]
    omega
  · simp [downloadParams]
    omega

theorem claim_C9_witness :
    (downloadParams "Apple" 2000).limit = 1000 ∧ (downloadParams "Apple" 7).limit = 7 :=
  ⟨(claim_C9 "Apple" 2000).2.1 (by decide), (claim_C9 "Apple" 7).2.2 (by decide)⟩

/-- The example tree of the spec: three files and two subdirectories holding
one file each. -/
def exTree : FsNode :=
  .dir (.cons "f1" (.file "a") (.cons "f2" (.file "b") (.cons "f3" (.file "c")
    (.cons "d1" (.dir (.cons "g1" (.file "d") .nil))
      (.cons "d2" (.dir (.cons "g2" (.file "e") .nil)) .nil)))))

/-- C3: the revision counter returns the number of files when the flag is any
string other than the literal `"True"`, and files plus directories (root
excluded) when it is `"True"`; on an empty directory it returns 0, and on the
three-file/two-subdirectory example it returns 5 and 7 respectively. -/
theorem claim_C3 :
    (∀ (es : FsEntries) (folders : String),
      countEntries es folders =
        filesL es + (if folders = "True" then dirsL es else 0)) ∧
    count_revisions (FsNode.dir .nil) [] "False" = .ok 0 ∧
    count_revisions (FsNode.dir .nil) [] "True" = .ok 0 ∧
    count_revisions exTree [] "False" = .ok 5 ∧
    count_revisions exTree [] "True" = .ok 7 :=
  ⟨countEntries_eq, rfl, rfl, rfl, rfl⟩

/-- C8: on the serialization of any well-formed node, attribute extraction
returns the text of the first element (in document order) carrying the
requested tag name, and raises the `ValueError` naming the attribute exactly
when no element matches. -/
theorem claim_C8 (x : Xml) (attr : String) (hwf : wfE x = true) :
    extract_attribute (String.mk (serE x)) attr =
      (match ((elemsE x).filter (isNamed attr)).head? with
       | some e => (Except.ok (textE e) : Except PyErr String)
       | none =>
         Except.error
           (PyErr.mk "ValueError"
             ("Could not find attribute " ++ attr ++ " in text"))) := by
  rw [extract_attribute_serE x attr hwf]
  unfold treeExtract findFirstE
  rw [findAllE_filter]

/-- Concrete revision fragment used as C8's witness input. -/
def c8Elem : Xml :=
  .elem "revision"
    (.cons (.elem "id" (.cons (.txt "5") .nil))
      (.cons (.elem "timestamp" (.cons (.txt "2021-03-04T05:06:07Z") .nil)) .nil))

theorem claim_C8_witness :
    extract_attribute (String.mk (serE c8Elem)) "id" =
      (match ((elemsE c8Elem).filter (isNamed "id")).head? with
       | some e => (Except.ok (textE e) : Except PyErr String)
       | none =>
         Except.error
           (PyErr.mk "ValueError" ("Could not find attribute id in text"))) :=
  claim_C8 c8Elem "id" (by decide)

/-- C5: page validation on a serialized well-formed document returns unit
when a `page` element exists anywhere in the document and raises the
`ValueError` naming the page exactly when none exists. -/
theorem claim_C5 (p : String) (l : XmlList) (hwf : wfL l = true) :
    validate_page p (String.mk (serL l)) =
      (if (findFirstL "page" l).isSome then Except.ok ()
       else Except.error (PyErr.mk "ValueError" ("Page " ++ p ++ " does not exist"))) ∧
    ((findFirstL "page" l).isSome = true ↔ cntL "page" l ≠ 0) := by
  constructor
  · unfold validate_page
    rw [extract_attribute_mk_serL l "page" hwf]
    cases hf : findFirstL "page" l with
    | some e => simp [hf]
    | none => simp [hf]
  · rw [findFirstL, ← findAllL_length "page" l]
    cases hfa : findAllL "page" l with
    | nil => simp [hfa]
    | cons a as => simp [hfa]

/-- Concrete document used as C5's witness input: a page with a title. -/
def c5Doc : XmlList :=
  .cons (.elem "mediawiki"
    (.cons (.elem "page" (.cons (.elem "title" (.cons (.txt "T") .nil)) .nil))
      .nil)) .nil

theorem claim_C5_witness :
    (validate_page "Apple" (String.mk (serL c5Doc)) =
      (if (findFirstL "page" c5Doc).isSome then Except.ok ()
       else Except.error (PyErr.mk "ValueError" ("Page Apple does not exist")))) ∧
    ((findFirstL "page" c5Doc).isSome = true ↔ cntL "page" c5Doc ≠ 0) :=
  claim_C5 "Apple" c5Doc (by decide)

/-- C4: on a serialized well-formed export document, the revision parser
yields one fragment per `revision` element, in document order (the fragments
are the serializations of exactly the `revision` elements of the preorder
traversal), and re-parsing any yielded fragment recovers the same `id` and
`timestamp` the element had in the source document. -/
theorem claim_C4 (l : XmlList) (hwf : wfL l = true) :
    (parse_mediawiki_revisions (String.mk (serL l))).length = cntL "revision" l ∧
    parse_mediawiki_revisions (String.mk (serL l)) =
      ((elemsL l).filter (isNamed "revision")).map (fun e => String.mk (serE e)) ∧
    ∀ e ∈ findAllL "revision" l,
      extract_attribute (String.mk (serE e)) "id" = treeExtract "id" e ∧
      extract_attribute (String.mk (serE e)) "timestamp" = treeExtract "timestamp" e := by
  have hpmr : parse_mediawiki_revisions (String.mk (serL l)) =
      (findAllL "revision" l).map (fun e => String.mk (serE e)) := by
    unfold parse_mediawiki_revisions
    rw [parseDoc_mk_serL l hwf]
  refine ⟨?_, ?_, ?_⟩
  · rw [hpmr, List.length_map, findAllL_length]
  · rw [hpmr, findAllL_filter]
  · intro e he
    have hwfe := wf_findAllL "revision" l hwf e he
    exact ⟨extract_attribute_serE e "id" hwfe, extract_attribute_serE e "timestamp" hwfe⟩

/-- Concrete export document used as C4's witness input: two revisions. -/
def c4Doc : XmlList :=
  .cons (.elem "mediawiki"
    (.cons (.elem "page"
      (.cons (.elem "revision"
        (.cons (.elem "id" (.cons (.txt "11") .nil))
          (.cons (.elem "timestamp" (.cons (.txt "2020-05-06T07:08:09Z") .nil)) .nil)))
        (.cons (.elem "revision"
          (.cons (.elem "id" (.cons (.txt "12") .nil))
            (.cons (.elem "timestamp" (.cons (.txt "2020-06-06T07:08:09Z") .nil)) .nil)))
          .nil))) .nil)) .nil

theorem claim_C4_witness :
    (parse_mediawiki_revisions (String.mk (serL c4Doc))).length = cntL "revision" c4Doc :=
  (claim_C4 c4Doc (by decide)).1

/-- Path following the claim's words literally — `<data_root>/<page_title>/
<year>/<4-digit zero-padded month>/<revision_id>.xml`.  Modelled from the
spec's words, for comparison with `construct_path`. -/
def specFourDigitMonthPath (save_dir : List String) (page : String)
    (dt : DateTime) (revision_id : String) : List String :=
  save_dir ++ [page, Nat.repr dt.year, zfill 4 (Nat.repr dt.month),
               revision_id ++ ".xml"]

/-- Concrete fragment exercising the path builder (May 2020, id 42). -/
def c2Frag : String :=
  "<revision><id>42</id><timestamp>2020-05-06T07:08:09Z</timestamp></revision>"

/-- C2 counterexample: the built path carries a two-digit month (`05`), not
the four-digit zero-padded month (`0005`) the claim states. -/
theorem claim_C2_counterexample :
    construct_path "Apple" ["data"] c2Frag =
      .ok ["data", "Apple", "2020", "05", "42.xml"] ∧
    specFourDigitMonthPath ["data"] "Apple" ⟨2020, 5, 6, 7, 8, 9⟩ "42" =
      ["data", "Apple", "2020", "0005", "42.xml"] ∧
    (["data", "Apple", "2020", "05", "42.xml"] : List String) ≠
      ["data", "Apple", "2020", "0005", "42.xml"] :=
  ⟨rfl, rfl, by decide⟩

/-- C2 (amended): for every fragment whose id extracts as `I` and whose
timestamp parses as `T`, the built path is
`<root>/<page>/<year(T)>/<2-digit zero-padded month(T)>/<I>.xml`; the path is
a pure function of (page, fragment, root), hence repeated calls agree. -/
theorem claim_C2 (page : String) (dir : List String) (frag i ts : String)
    (dt : DateTime)
    (h1 : extract_id frag = .ok i)
    (h2 : extract_attribute frag "timestamp" = .ok ts)
    (h3 : parse_timestring ts = .ok dt) :
    construct_path page dir frag =
      .ok (dir ++ [page, Nat.repr dt.year, zfill 2 (Nat.repr dt.month),
                   i ++ ".xml"]) := by
  simp [construct_path, find_timestamp, h1, h2, h3]

theorem claim_C2_witness :
    construct_path "Apple" ["data"] c2Frag =
      .ok (["data"] ++ ["Apple", Nat.repr (2020 : Nat), zfill 2 (Nat.repr (5 : Nat)),
                        "42" ++ ".xml"]) :=
  claim_C2 "Apple" ["data"] c2Frag "42" "2020-05-06T07:08:09Z" ⟨2020, 5, 6, 7, 8, 9⟩
    rfl rfl rfl

/-- The claim's format `YYYY-MM-DDTHH:MM:SSZ` read literally: fixed-width
two-digit fields in the conventional ranges (month 01–12, day 01–31, hour
00–23, minute and second 00–59).  Modelled from the spec's words, for
comparison with `parse_timestring`. -/
def specTimestampFormat (s : String) : Bool :=
  match s.toList with
  | [y1, y2, y3, y4, '-', m1, m2, '-', d1, d2, 'T',
     h1, h2, ':', n1, n2, ':', s1, s2, 'Z'] =>
    ([y1, y2, y3, y4].all Char.isDigit) && ([m1, m2].all Char.isDigit) &&
    ([d1, d2].all Char.isDigit) && ([h1, h2].all Char.isDigit) &&
    ([n1, n2].all Char.isDigit) && ([s1, s2].all Char.isDigit) &&
    decide (1 ≤ digitVal [m1, m2] ∧ digitVal [m1, m2] ≤ 12) &&
    decide (1 ≤ digitVal [d1, d2] ∧ digitVal [d1, d2] ≤ 31) &&
    decide (digitVal [h1, h2] ≤ 23) && decide (digitVal [n1, n2] ≤ 59) &&
    decide (digitVal [s1, s2] ≤ 59)
  | _ => false

/-- Concrete fragment whose timestamp is February 30th. -/
def c7Frag : String :=
  "<revision><id>9</id><timestamp>2021-02-30T00:00:00Z</timestamp></revision>"

/-- C7 counterexample: the fragment carries both `id` and `timestamp`, and
the timestamp matches the literal `YYYY-MM-DDTHH:MM:SSZ` format, yet the path
builder raises the calendar `ValueError` — so success is not "exactly when
both elements are present and the timestamp matches the format". -/
theorem claim_C7_counterexample :
    specTimestampFormat "2021-02-30T00:00:00Z" = true ∧
    extract_id c7Frag = .ok "9" ∧
    extract_attribute c7Frag "timestamp" = .ok "2021-02-30T00:00:00Z" ∧
    construct_path "Apple" ["data"] c7Frag =
      .error ⟨"ValueError", "day is out of range for month"⟩ :=
  ⟨by decide, rfl, rfl, rfl⟩

/-- C7 (amended): the path builder propagates the extractor's `ValueError`
when `id` (checked first) or `timestamp` is missing; with both present it
propagates the parse `ValueError` exactly when `parse_timestring` rejects the
timestamp text, and succeeds otherwise; acceptance is `ValidTimestring` —
lenient one/two-digit month, day, hour, minute and second fields plus the
calendar checks — not the fixed-width format as written. -/
theorem claim_C7 (page : String) (dir : List String) (frag : String) :
    (∀ e, extract_id frag = .error e → construct_path page dir frag = .error e) ∧
    (∀ i e, extract_id frag = .ok i →
      extract_attribute frag "timestamp" = .error e →
      construct_path page dir frag = .error e) ∧
    (∀ i ts e, extract_id frag = .ok i →
      extract_attribute frag "timestamp" = .ok ts →
      parse_timestring ts = .error e →
      construct_path page dir frag = .error e) ∧
    (∀ i ts dt, extract_id frag = .ok i →
      extract_attribute frag "timestamp" = .ok ts →
      parse_timestring ts = .ok dt →
      construct_path page dir frag =
        .ok (dir ++ [page, Nat.repr dt.year, zfill 2 (Nat.repr dt.month),
                     i ++ ".xml"])) ∧
    (∀ s, (∃ dt, parse_timestring s = .ok dt) ↔ ValidTimestring s) := by
  refine ⟨?_, ?_, ?_, ?_, parse_timestring_ok_iff⟩
  · intro e h1
    simp [construct_path, h1]
  · intro i e h1 h2
    simp [construct_path, find_timestamp, h1, h2]
  · intro i ts e h1 h2 h3
    simp [construct_path, find_timestamp, h1, h2, h3]
  · intro i ts dt h1 h2 h3
    simp [construct_path, find_timestamp, h1, h2, h3]

theorem claim_C7_witness :
    construct_path "Apple" ["data"] c2Frag =
      .ok (["data"] ++ ["Apple", Nat.repr (2020 : Nat), zfill 2 (Nat.repr (5 : Nat)),
                        "42" ++ ".xml"]) ∧
    construct_path "Apple" ["data"] "<revision><nothing></nothing></revision>" =
      .error ⟨"ValueError", "Could not find attribute id in text"⟩ :=
  ⟨(claim_C7 "Apple" ["data"] c2Frag).2.2.2.1 "42" "2020-05-06T07:08:09Z"
      ⟨2020, 5, 6, 7, 8, 9⟩ rfl rfl rfl,
    (claim_C7 "Apple" ["data"] "<revision><nothing></nothing></revision>").1
      ⟨"ValueError", "Could not find attribute id in text"⟩ rfl⟩

/-- C10: the extractor's NotFound error, the page-validation error and the
timestamp parse error are all raised as the same exception type
(`ValueError`); at representative failing inputs the three errors share the
type and differ only in message text. -/
theorem claim_C10 :
    (∀ s a e, extract_attribute s a = .error e → e.ty = "ValueError") ∧
    (∀ p x e, validate_page p x = .error e → e.ty = "ValueError") ∧
    (∀ s e, parse_timestring s = .error e → e.ty = "ValueError") ∧
    (∃ e1 e2 e3 : PyErr,
      extract_attribute "<a></a>" "id" = .error e1 ∧
      validate_page "Apple" "<a></a>" = .error e2 ∧
      parse_timestring "nonsense" = .error e3 ∧
      e1.ty = e2.ty ∧ e2.ty = e3.ty ∧
      e1.msg ≠ e2.msg ∧ e1.msg ≠ e3.msg ∧ e2.msg ≠ e3.msg) := by
  refine ⟨?_, ?_, ?_, ?_⟩
  · intro s a e h
    unfold extract_attribute at h
    split at h
    · split at h
      · exact absurd h (by simp)
      · cases h
        rfl
    · cases h
      rfl
  · intro p x e h
    unfold validate_page at h
    split at h
    · exact absurd h (by simp)
    · cases h
      rfl
  · intro s e h
    unfold parse_timestring at h
    split at h
    · cases h
      rfl
    · split at h
      · cases h
        rfl
      · split at h
        · cases h
          rfl
        · split at h
          · cases h
            rfl
          · exact absurd h (by simp)
  · exact ⟨⟨"ValueError", "Could not find attribute id in text"⟩,
      ⟨"ValueError", "Page Apple does not exist"⟩,
      ⟨"ValueError", "time data nonsense does not match format %Y-%m-%dT%H:%M:%SZ"⟩,
      rfl, rfl, rfl, rfl, rfl, by decide, by decide, by decide⟩

theorem claim_C10_witness :
    (PyErr.mk "ValueError" "Could not find attribute id in text").ty = "ValueError" :=
  claim_C10.1 "<a></a>" "id" ⟨"ValueError", "Could not find attribute id in text"⟩ rfl

/-- C6: on a response whose document holds a `page` element but no revision
elements, when the page's output subdirectory does not yet exist, the run
ends with the counter's FileNotFound error instead of reporting a count. -/
theorem claim_C6 (page : String) (data_dir : List String) (folders raw : String)
    (fs0 : FsNode) (l : XmlList)
    (hparse : parseDoc raw = some l)
    (hpage : (findFirstL "page" l).isSome = true)
    (hrev : findAllL "revision" l = [])
    (hdir : lookup fs0 (data_dir ++ [page]) = none) :
    mainRun page data_dir folders raw fs0 =
      .error ⟨"FileNotFoundError", "No such file or directory"⟩ := by
  obtain ⟨e, he⟩ := Option.isSome_iff_exists.mp hpage
  have hval : validate_page page raw = .ok () := by
    unfold validate_page extract_attribute
    rw [hparse]
    simp only [he]
  have hfr : parse_mediawiki_revisions raw = [] := by
    unfold parse_mediawiki_revisions
    rw [hparse]
    simp only [hrev, List.map_nil]
  have hcount : count_revisions fs0 (data_dir ++ [page]) folders =
      .error ⟨"FileNotFoundError", "No such file or directory"⟩ := by
    unfold count_revisions
    rw [hdir]
  unfold mainRun
  simp only [hval, hfr, hcount, processRevisions]

/-- Concrete zero-revision response used as C6's witness input. -/
def c6Doc : String := "<mediawiki><page><title>X</title></page></mediawiki>"

/-- The parse tree of `c6Doc`. -/
def c6Tree : XmlList :=
  .cons (.elem "mediawiki"
    (.cons (.elem "page" (.cons (.elem "title" (.cons (.txt "X") .nil)) .nil))
      .nil)) .nil

theorem claim_C6_witness :
    mainRun "X" ["data"] "False" c6Doc (FsNode.dir .nil) =
      .error ⟨"FileNotFoundError", "No such file or directory"⟩ :=
  claim_C6 "X" ["data"] "False" c6Doc (FsNode.dir .nil) c6Tree rfl rfl rfl rfl

/-- The export response used to exhibit the double-persist behavior: one
page, one revision (id 5, March 2021). -/
def c1Doc : String :=
  "<mediawiki><page><title>Apple</title><revision><id>5</id><timestamp>2021-03-04T05:06:07Z</timestamp></revision></page></mediawiki>"

/-- The serialized fragment of `c1Doc`'s single revision. -/
def c1Frag : String :=
  "<revision><id>5</id><timestamp>2021-03-04T05:06:07Z</timestamp></revision>"

/-- The storage path of that revision. -/
def c1Path : List String := ["data", "Apple", "2021", "03", "5.xml"]

/-- First run: download into an empty data root. -/
def c1Run1 : Except PyErr (FsNode × List (List String) × Nat) :=
  mainRun "Apple" ["data"] "False" c1Doc (FsNode.dir .nil)

/-- The data root left behind by the first run. -/
def c1Fs1 : FsNode :=
  match c1Run1 with
  | .ok (fs, _, _) => fs
  | .error _ => .dir .nil

/-- Second run: the same response persisted again over the first run's tree. -/
def c1Run2 : Except PyErr (FsNode × List (List String) × Nat) :=
  mainRun "Apple" ["data"] "False" c1Doc c1Fs1

set_option maxRecDepth 10000 in
/-- C1: persisting the same revision twice.  The first run writes the file;
before the second run the file exists at the target path; the second run
nevertheless hands the path to `write_text` again (its write log is
`[c1Path]`, not empty) — the `exists` test in the script guards only the
`mkdir`, not the write — although it succeeds and leaves the tree unchanged
because the rewritten content is identical. -/
theorem claim_C1 :
    c1Run1 = .ok (c1Fs1, [c1Path], 1) ∧
    lookup c1Fs1 c1Path = some (.file c1Frag) ∧
    c1Run2 = .ok (c1Fs1, [c1Path], 1) :=
  ⟨rfl, rfl, rfl⟩
